import Mathlib

/-
  Verification development for the docker-pvc-migration tool.

  The Go sources are shallowly embedded below: pure helper functions from
  the strings and strconv packages are re-implemented over character
  lists with the same semantics (ASCII case folding, which is faithful
  for the ASCII volume and claim names the tool handles); effectful code
  (kubectl round trips, stdin reads, yaml (un)marshalling by the external
  library) is parameterised by explicit oracles, and the control-plane
  interactions are recorded as an explicit action trace.
-/

/-! Go standard-library string helpers, re-implemented structurally so
    that every definition evaluates by kernel reduction. -/

/-- Whether the pattern list is an initial run of the subject list
    (the helper behind Go strings.HasPrefix/Contains/HasSuffix). -/
def charsStarts : List Char → List Char → Bool
  | _, [] => true
  | [], _ :: _ => false
  | a :: as, b :: bs => a = b && charsStarts as bs

/-- Whether the pattern occurs contiguously anywhere in the subject list. -/
def charsContains : List Char → List Char → Bool
  | s, pat =>
    charsStarts s pat ||
      match s with
      | [] => false
      | _ :: t => charsContains t pat

/-- Go strings.Contains. -/
def strContains (s pat : String) : Bool :=
  charsContains s.data pat.data

/-- Go strings.HasSuffix. -/
def strEnds (s pat : String) : Bool :=
  charsStarts s.data.reverse pat.data.reverse

/-- Go strings.TrimSpace: drop whitespace from both ends. -/
def goTrimSpace (s : String) : String :=
  ⟨((s.data.dropWhile Char.isWhitespace).reverse.dropWhile Char.isWhitespace).reverse⟩

/-- Go strings.ToLower (ASCII case folding). -/
def goToLower (s : String) : String :=
  ⟨s.data.map Char.toLower⟩

/-- Fuel-indexed splitting at every leftmost occurrence of a multi-character
    separator; with fuel at least the input length it implements Go
    strings.Split for a nonempty separator. -/
def splitStrFuel (sep : List Char) : Nat → List Char → List Char → List (List Char)
  | _, [], acc => [acc.reverse]
  | 0, rest, acc => [acc.reverse ++ rest]
  | fuel + 1, c :: rest, acc =>
    if charsStarts (c :: rest) sep then
      acc.reverse :: splitStrFuel sep fuel ((c :: rest).drop sep.length) []
    else
      splitStrFuel sep fuel rest (c :: acc)

/-- Go strings.Split with a (nonempty) string separator. -/
def splitOnStr (sep s : String) : List String :=
  (splitStrFuel sep.data s.data.length s.data []).map (fun cs => ⟨cs⟩)

/-- Go strings.Join. -/
def joinSep (sep : String) (l : List String) : String :=
  ⟨List.intercalate sep.data (l.map String.data)⟩

/-- Digit-run parser used by the strconv.Atoi model: all characters must
    be decimal digits and at least one must be present. -/
def parseDigits (cs : List Char) : Option Nat :=
  if cs = [] then none
  else
    cs.foldl
      (fun acc c =>
        match acc with
        | none => none
        | some n => if c.isDigit then some (n * 10 + (c.toNat - 48)) else none)
      (some 0)

/-- Go strconv.Atoi: optional sign followed by a nonempty digit run
    (modelled with unbounded integers; any overflowing input is far out
    of every menu range, so the re-prompt behaviour is unchanged). -/
def atoi (s : String) : Option Int :=
  match s.data with
  | '+' :: rest => (parseDigits rest).map Int.ofNat
  | '-' :: rest => (parseDigits rest).map (fun n => -(n : Int))
  | cs => (parseDigits cs).map Int.ofNat

/-! Data model (internal/types). -/

/-- DockerVolumeInfo from internal/types. -/
structure DockerVolumeInfo where
  Name : String
  Mountpoint : String
  Size : Int
  SizeHuman : String
deriving DecidableEq

/-- PVCInfo from internal/types. -/
structure PVCInfo where
  Name : String
  Namespace : String
  RequestedSize : String
  MatchedVolume : Option DockerVolumeInfo
  NewSize : String
deriving DecidableEq

/-! Docker inventory (internal/docker/client.go). -/

/-- One row of the docker system df volume table, as parsed by
    parseDockerDFOutput (the volumeSize struct). -/
structure volumeSize where
  bytes : Int
  human : String
  links : Int
deriving DecidableEq

/-- One entry of the VolumeList response (name and mountpoint are the
    fields LoadVolumes reads). -/
structure VolumeListing where
  Name : String
  Mountpoint : String
deriving DecidableEq

/-- Go map assignment on an association list: replace the value at an
    existing key, or append the binding. -/
def mapInsert (m : List (String × DockerVolumeInfo)) (k : String)
    (v : DockerVolumeInfo) : List (String × DockerVolumeInfo) :=
  m.filter (fun p => p.1 != k) ++ [(k, v)]

/-- LoadVolumes: build the volume map from the VolumeList response and
    the (optional, best-effort) parsed docker df size table, skipping
    every volume whose links count is positive; walkSize is the
    filesystem-walk fallback oracle for sizes the table lacks. -/
def LoadVolumes (volumes : List VolumeListing)
    (volumeSizes : Option (List (String × volumeSize)))
    (walkSize : String → Int × String) : List (String × DockerVolumeInfo) :=
  volumes.foldl
    (fun result v =>
      let found : Option volumeSize :=
        match volumeSizes with
        | none => none
        | some m => List.lookup v.Name m
      let size : Int := match found with | some df => df.bytes | none => 0
      let sizeHuman : String := match found with | some df => df.human | none => ""
      let links : Int := match found with | some df => df.links | none => 0
      if links > 0 then result
      else
        let sized : Int × String :=
          if size = 0 then walkSize v.Mountpoint else (size, sizeHuman)
        mapInsert result v.Name
          { Name := v.Name, Mountpoint := v.Mountpoint
            Size := sized.1, SizeHuman := sized.2 })
    []

/-! Matching engine (internal/matcher/volume_matcher.go). -/

/-- extractPVCParts: strip the leading (namespace-like) hyphen segment,
    split the cleaned name on the hyphen and underscore separators
    keeping lowercased parts longer than one character, and append the
    lowercased cleaned name itself.  Part length counts characters,
    which agrees with the Go byte length on the ASCII names involved. -/
def extractPVCParts (pvcName : String) : List String :=
  let cleanName :=
    if strContains pvcName "-" then
      let parts := splitOnStr "-" pvcName
      if parts.length > 1 then joinSep "-" (parts.drop 1) else pvcName
    else pvcName
  let parts :=
    ["-", "_"].foldl
      (fun acc sep =>
        (splitOnStr sep cleanName).foldl
          (fun acc2 part =>
            if part.length > 1 then acc2 ++ [goToLower part] else acc2)
          acc)
      []
  parts ++ [goToLower cleanName]

/-- volumeContainsPVCParts: the volume name (lowercased) contains some part. -/
def volumeContainsPVCParts (volumeName : String) (pvcParts : List String) : Bool :=
  pvcParts.any (fun part => strContains (goToLower volumeName) part)

/-- Insertion step for the name sort applied to candidate lists. -/
def insertByName (v : DockerVolumeInfo) : List DockerVolumeInfo → List DockerVolumeInfo
  | [] => [v]
  | w :: ws => if v.Name < w.Name then v :: w :: ws else w :: insertByName v ws

/-- Name sort applied to candidate lists before display (sort.Slice on Name). -/
def sortByName (l : List DockerVolumeInfo) : List DockerVolumeInfo :=
  l.foldr insertByName []

/-- findVolumesContainingPVCName: the docker volumes whose name contains
    one of the extracted parts, sorted by name for display. -/
def findVolumesContainingPVCName (dockerVolumes : List (String × DockerVolumeInfo))
    (pvcName : String) : List DockerVolumeInfo :=
  let pvcParts := extractPVCParts pvcName
  sortByName
    ((dockerVolumes.map Prod.snd).filter
      (fun v => volumeContainsPVCParts v.Name pvcParts))

/-- getAllDockerVolumes: the whole inventory, sorted by name for display. -/
def getAllDockerVolumes (dockerVolumes : List (String × DockerVolumeInfo)) :
    List DockerVolumeInfo :=
  sortByName (dockerVolumes.map Prod.snd)

/-- calculateComposeMatchScore: 3 for a lowercase substring hit, 2 for a
    lowercase suffix hit, 4 for a separator-prefixed substring hit. -/
def calculateComposeMatchScore (volumeName dockerVolumeName : String) : Nat :=
  let score := 0
  let score :=
    if strContains (goToLower dockerVolumeName) (goToLower volumeName) then
      score + 3
    else score
  let score :=
    if strEnds (goToLower dockerVolumeName) (goToLower volumeName) then
      score + 2
    else score
  let score :=
    if strContains (goToLower dockerVolumeName) ("_" ++ goToLower volumeName) ||
        strContains (goToLower dockerVolumeName) ("-" ++ goToLower volumeName) then
      score + 4
    else score
  score

/-- findFuzzyMatchForCompose: keep the first strictly improving positive
    score over the inventory keys, then look the best key up. -/
def findFuzzyMatchForCompose (dockerVolumes : List (String × DockerVolumeInfo))
    (volumeName : String) : Option DockerVolumeInfo :=
  let best :=
    dockerVolumes.foldl
      (fun (acc : String × Nat) p =>
        let score := calculateComposeMatchScore volumeName p.1
        if score > acc.2 && score > 0 then (p.1, score) else acc)
      ("", 0)
  if best.1 != "" then List.lookup best.1 dockerVolumes else none

/-- interactiveVolumeSelection: one prompting round per available input;
    a read error or unparsable or out-of-range number re-prompts, 0
    selects no volume, and an in-range number selects the listed
    candidate.  The outer none means the input stream ran out while the
    loop was still prompting. -/
def interactiveVolumeSelection (candidates : List DockerVolumeInfo) :
    List (Option String) → Option (Option DockerVolumeInfo)
  | [] => none
  | attempt :: rest =>
    match attempt with
    | none => interactiveVolumeSelection candidates rest
    | some raw =>
      match atoi (goTrimSpace raw) with
      | none => interactiveVolumeSelection candidates rest
      | some choice =>
        if choice = 0 then some none
        else if h : 1 ≤ choice ∧ choice ≤ (candidates.length : Int) then
          some (some (candidates.get ⟨(choice - 1).toNat, by omega⟩))
        else interactiveVolumeSelection candidates rest

/-- Characterisation of the loop above: the first input line that parses
    to 0 or to an in-range index is the accepted choice. -/
def acceptedChoice (len : Nat) : List (Option String) → Option Int
  | [] => none
  | attempt :: rest =>
    match attempt with
    | none => acceptedChoice len rest
    | some raw =>
      match atoi (goTrimSpace raw) with
      | none => acceptedChoice len rest
      | some choice =>
        if choice = 0 ∨ (1 ≤ choice ∧ choice ≤ (len : Int)) then some choice
        else acceptedChoice len rest

/-! Interactive sizing (internal/ui, InteractiveSetSizes and isValidSize).
    The kubernetes resource.ParseQuantity validator lives in an external
    library, so validity is an oracle parameter; the stdin reader is an
    oracle indexed by the position of the claim in the list, with none
    standing for a read error. -/

/-- InteractiveSetSizes from the given list position on: one stdin line
    per claim decides NewSize (empty input keeps RequestedSize, a valid
    quantity is adopted, an invalid one falls back to RequestedSize);
    only a read failure aborts with an error. -/
def InteractiveSetSizesFrom (valid : String → Bool) (inputs : Nat → Option String) :
    Nat → List PVCInfo → Except String (List PVCInfo)
  | _, [] => .ok []
  | i, pvc :: rest =>
    match inputs i with
    | none => .error "failed to read input"
    | some raw =>
      let input := goTrimSpace raw
      let newSize :=
        if input = "" then pvc.RequestedSize
        else if valid input then input
        else pvc.RequestedSize
      match InteractiveSetSizesFrom valid inputs (i + 1) rest with
      | .error e => .error e
      | .ok rest2 => .ok ({ pvc with NewSize := newSize } :: rest2)

/-- InteractiveSetSizes over a whole claim list. -/
def InteractiveSetSizes (valid : String → Bool) (inputs : Nat → Option String)
    (pvcs : List PVCInfo) : Except String (List PVCInfo) :=
  InteractiveSetSizesFrom valid inputs 0 pvcs

/-! YAML declaration rewrite (internal/yaml updater and the kubernetes
    declaration parser).  YAML documents parse to Go interface values;
    the external yaml library's Unmarshal and Marshal are oracles, while
    the object-level manipulation is the code under verification. -/

/-- Go interface value tree as produced by yaml.Unmarshal into
    map[string]interface{}: strings, nested maps, and anything else
    (numbers, lists, booleans, nil) on which the type assertions the
    code performs all fail. -/
inductive GoVal where
  | str (s : String)
  | vmap (entries : List (String × GoVal))
  | other

/-- Lookup in a Go map value. -/
def mlookup (m : List (String × GoVal)) (k : String) : Option GoVal :=
  List.lookup k m

/-- Go map assignment for interface maps: replace at an existing key or
    append the binding. -/
def mset (m : List (String × GoVal)) (k : String) (v : GoVal) :
    List (String × GoVal) :=
  if m.any (fun p => p.1 == k) then
    m.map (fun p => if p.1 == k then (k, v) else p)
  else m ++ [(k, v)]

/-- parsePVCFromObject: read name, namespace (defaulting), and the
    requested storage quantity out of a decoded declaration object,
    failing when any typed field is missing. -/
def parsePVCFromObject (obj : List (String × GoVal)) : Option PVCInfo :=
  match mlookup obj "metadata" with
  | some (.vmap metadata) =>
    match mlookup metadata "name" with
    | some (.str name) =>
      let ns :=
        match mlookup metadata "namespace" with
        | some (.str s) => s
        | _ => "default"
      match mlookup obj "spec" with
      | some (.vmap spec) =>
        match mlookup spec "resources" with
        | some (.vmap resources) =>
          match mlookup resources "requests" with
          | some (.vmap requests) =>
            match mlookup requests "storage" with
            | some (.str storage) =>
              some { Name := name, Namespace := ns, RequestedSize := storage
                     MatchedVolume := none, NewSize := "" }
            | _ => none
          | _ => none
        | _ => none
      | _ => none
    | _ => none
  | _ => none

/-- Object-level body of updateDocumentIfPVC: when the object is a
    PersistentVolumeClaim whose name and namespace match a claim with a
    nonempty NewSize and the spec chain is well-typed, rewrite the
    storage request and return the updated object with the claim. -/
def updatePVCObject (obj : List (String × GoVal)) (pvcs : List PVCInfo) :
    Option (List (String × GoVal) × PVCInfo) :=
  let kindOk :=
    match mlookup obj "kind" with
    | some (.str k) => k == "PersistentVolumeClaim"
    | _ => false
  if !kindOk then none
  else
    match mlookup obj "metadata" with
    | some (.vmap metadata) =>
      match mlookup metadata "name" with
      | some (.str name) =>
        let ns :=
          match mlookup metadata "namespace" with
          | some (.str s) => s
          | _ => "default"
        match pvcs.find? (fun pvc => pvc.Name == name && pvc.Namespace == ns) with
        | none => none
        | some matchingPVC =>
          if matchingPVC.NewSize == "" then none
          else
            match mlookup obj "spec" with
            | some (.vmap spec) =>
              match mlookup spec "resources" with
              | some (.vmap resources) =>
                match mlookup resources "requests" with
                | some (.vmap requests) =>
                  let requests2 := mset requests "storage" (.str matchingPVC.NewSize)
                  let resources2 := mset resources "requests" (.vmap requests2)
                  let spec2 := mset spec "resources" (.vmap resources2)
                  some (mset obj "spec" (.vmap spec2), matchingPVC)
                | _ => none
              | _ => none
            | _ => none
      | _ => none
    | _ => none

/-- updateDocumentIfPVC: parse the document text through the unmarshal
    oracle, rewrite the object when it is a matching claim, and
    re-serialise through the marshal oracle; any parse failure or
    non-matching document is returned unchanged. -/
def updateDocumentIfPVC (unmarshal : String → Option (List (String × GoVal)))
    (marshal : List (String × GoVal) → String)
    (document : String) (pvcs : List PVCInfo) : String × Bool :=
  match unmarshal document with
  | none => (document, false)
  | some obj =>
    match updatePVCObject obj pvcs with
    | none => (document, false)
    | some (obj2, _) => (marshal obj2, true)

/-- Body of the document loop of updateYAMLFile: whitespace-only
    documents are dropped, every other document is rewritten when it is
    a matching claim and the update flag accumulates. -/
def updStep (unmarshal : String → Option (List (String × GoVal)))
    (marshal : List (String × GoVal) → String) (pvcs : List PVCInfo)
    (acc : List String × Bool) (doc : String) : List String × Bool :=
  if goTrimSpace doc == "" then acc
  else
    let r := updateDocumentIfPVC unmarshal marshal doc pvcs
    (acc.1 ++ [r.1], acc.2 || r.2)

/-- updateYAMLFile on the content of one file: split on the document
    separator, fold the document loop, and rejoin when some document was
    updated; none means the file is left untouched. -/
def updateYAMLFile (unmarshal : String → Option (List (String × GoVal)))
    (marshal : List (String × GoVal) → String)
    (content : String) (pvcs : List PVCInfo) : Option String :=
  let documents := splitOnStr "\n---\n" content
  let step := documents.foldl (updStep unmarshal marshal pvcs) ([], false)
  if step.2 then some (joinSep "\n---\n" step.1) else none

/-! Migration orchestrator (internal/migration/engine.go, the engine
    variant constructed by main.go via NewEngine(namespace)).  Every
    kubectl round trip appears in the returned action trace; the per-item
    kubectl behaviour is an oracle, indexed for the run by the position
    of the item in the input list. -/

/-- One kubectl invocation issued by the orchestrator. -/
inductive EngineAction where
  | applyPVC (name ns size : String)
  | getPVCPhase (name ns : String)
  | applyPod (podName ns hostPath claimName : String)
  | getPodPhase (podName ns : String)
  | getLogs (podName ns : String)
  | deletePod (podName ns : String)
deriving DecidableEq

/-- Behaviour of the control plane towards one migration item: apply
    outcomes (some message means the command failed with that output),
    the phase strings returned by successive status polls (none means
    the poll command itself failed), and the clock value used in the
    worker pod name. -/
structure KubeOracle where
  applyPVCErr : Option String
  pvcPoll : Nat → Option String
  applyPodErr : Option String
  podPoll : Nat → Option String
  logsErr : Option String
  deleteErr : Option String
  now : Nat

/-- Number of status polls the 5-minute bound wait performs at its fixed
    5-second interval before the deadline context fires. -/
def pvcBoundPollBudget : Nat := (5 * 60) / 5

/-- Number of status polls the 10-minute completion wait performs at its
    fixed 5-second interval before the deadline context fires. -/
def podCompletionPollBudget : Nat := (10 * 60) / 5

/-- waitForPVCBound of the live engine: poll the claim phase until it
    reports Bound, treating poll failures and every other phase
    (including Failed) alike by sleeping and retrying, until the
    deadline budget is exhausted. -/
def waitForPVCBound (pvcName ns : String) (poll : Nat → Option String) :
    Nat → Nat → Except String Unit × List EngineAction
  | 0, _ =>
    (.error ("timeout waiting for PVC " ++ pvcName ++ " to be bound"), [])
  | fuel + 1, i =>
    let act := EngineAction.getPVCPhase pvcName ns
    match poll i with
    | none =>
      let r := waitForPVCBound pvcName ns poll fuel (i + 1)
      (r.1, act :: r.2)
    | some output =>
      if goTrimSpace output = "Bound" then (.ok (), [act])
      else
        let r := waitForPVCBound pvcName ns poll fuel (i + 1)
        (r.1, act :: r.2)

/-- waitForPVCBound of the other engine variant in the repository (the
    one whose NewEngine takes the yaml directory): identical polling,
    except that a poll reporting the Failed phase returns a fatal error
    at once. -/
def EngineA.waitForPVCBound (pvcName : String) (poll : Nat → Option String) :
    Nat → Nat → Except String Unit
  | 0, _ => .error ("timeout waiting for PVC " ++ pvcName ++ " to be bound")
  | fuel + 1, i =>
    match poll i with
    | none => EngineA.waitForPVCBound pvcName poll fuel (i + 1)
    | some output =>
      let phase := goTrimSpace output
      if phase = "Bound" then .ok ()
      else if phase = "Failed" then .error "PVC failed to bind"
      else EngineA.waitForPVCBound pvcName poll fuel (i + 1)

/-- waitForPodCompletion: poll the worker pod phase until Succeeded
    (success) or Failed (fatal), retrying on poll failure and any other
    phase, until the deadline budget is exhausted. -/
def waitForPodCompletion (podName ns : String) (poll : Nat → Option String) :
    Nat → Nat → Except String Unit × List EngineAction
  | 0, _ =>
    (.error ("timeout waiting for pod " ++ podName ++ " to complete"), [])
  | fuel + 1, i =>
    let act := EngineAction.getPodPhase podName ns
    match poll i with
    | none =>
      let r := waitForPodCompletion podName ns poll fuel (i + 1)
      (r.1, act :: r.2)
    | some output =>
      let phase := goTrimSpace output
      if phase = "Succeeded" then (.ok (), [act])
      else if phase = "Failed" then (.error "migration pod failed", [act])
      else
        let r := waitForPodCompletion podName ns poll fuel (i + 1)
        (r.1, act :: r.2)

/-- createPVC: apply the generated claim declaration. -/
def createPVC (o : KubeOracle) (pvc : PVCInfo) :
    Except String Unit × List EngineAction :=
  (match o.applyPVCErr with
    | some e => .error ("kubectl apply failed: " ++ e)
    | none => .ok (),
   [.applyPVC pvc.Name pvc.Namespace pvc.NewSize])

/-- copyData: create the worker pod mounting the matched volume's host
    path and the bound claim, wait for it to complete, and on success
    fetch its logs and delete it (both best-effort). -/
def copyData (o : KubeOracle) (pvc : PVCInfo) (vol : DockerVolumeInfo) :
    Except String Unit × List EngineAction :=
  let podName := "migration-" ++ pvc.Name ++ "-" ++ Nat.repr o.now
  let applyAct := EngineAction.applyPod podName pvc.Namespace vol.Mountpoint pvc.Name
  match o.applyPodErr with
  | some e => (.error ("failed to create migration pod: " ++ e), [applyAct])
  | none =>
    match waitForPodCompletion podName pvc.Namespace o.podPoll podCompletionPollBudget 0 with
    | (.error e, as) => (.error ("migration pod failed: " ++ e), applyAct :: as)
    | (.ok _, as) =>
      (.ok (), applyAct :: as ++
        [.getLogs podName pvc.Namespace, .deletePod podName pvc.Namespace])

/-- migratePVC: create the claim, wait for it to bind, then copy the
    data, wrapping each failure with its stage message. -/
def migratePVC (o : KubeOracle) (pvc : PVCInfo) (vol : DockerVolumeInfo) :
    Except String Unit × List EngineAction :=
  match createPVC o pvc with
  | (.error e, as) => (.error ("failed to create PVC: " ++ e), as)
  | (.ok _, as) =>
    match waitForPVCBound pvc.Name pvc.Namespace o.pvcPoll pvcBoundPollBudget 0 with
    | (.error e, bs) => (.error ("PVC not bound: " ++ e), as ++ bs)
    | (.ok _, bs) =>
      match copyData o pvc vol with
      | (.error e, cs) => (.error ("failed to copy data: " ++ e), as ++ bs ++ cs)
      | (.ok _, cs) => (.ok (), as ++ bs ++ cs)

/-- StartMigration from a given list position: items are processed
    strictly in order; an unmatched item is skipped, the first failing
    item aborts the run with its identity attached to the error, and a
    successful item's trace is followed by the rest of the run. -/
def StartMigrationFrom (env : Nat → KubeOracle) :
    Nat → List PVCInfo → Except String Unit × List EngineAction
  | _, [] => (.ok (), [])
  | i, pvc :: rest =>
    match pvc.MatchedVolume with
    | none => StartMigrationFrom env (i + 1) rest
    | some vol =>
      match migratePVC (env i) pvc vol with
      | (.error e, as) =>
        (.error ("migration failed for PVC " ++ pvc.Name ++ ": " ++ e), as)
      | (.ok _, as) =>
        let r := StartMigrationFrom env (i + 1) rest
        (r.1, as ++ r.2)

/-- StartMigration over a whole run. -/
def StartMigration (env : Nat → KubeOracle) (pvcs : List PVCInfo) :
    Except String Unit × List EngineAction :=
  StartMigrationFrom env 0 pvcs

/-- The lines DryRun prints for the item at a given list position: a
    single SKIP line for an unmatched item, otherwise the migration
    projection block. -/
def dryRunItem (i : Nat) (pvc : PVCInfo) : List String :=
  match pvc.MatchedVolume with
  | none =>
    ["[" ++ Nat.repr (i + 1) ++ "] SKIP: " ++ pvc.Name ++ " (no volume selected)"]
  | some vol =>
    ["[" ++ Nat.repr (i + 1) ++ "] MIGRATE: " ++ pvc.Name,
     "    Source: " ++ vol.Name ++ " (" ++ vol.SizeHuman ++ ")",
     "    Target: PVC " ++ pvc.Namespace ++ "/" ++ pvc.Name ++ " (" ++ pvc.NewSize ++ ")",
     "    Path: " ++ vol.Mountpoint ++ " → PVC mount",
     ""]

/-- The item lines DryRun prints from a given list position on. -/
def dryRunLinesFrom : Nat → List PVCInfo → List String
  | _, [] => []
  | i, pvc :: rest => dryRunItem i pvc ++ dryRunLinesFrom (i + 1) rest

/-- DryRun: the full printed projection, a pure read of the mapping
    issuing no control-plane call (its type admits no EngineAction). -/
def DryRun (pvcs : List PVCInfo) : List String :=
  "=== Dry Run - Migration Plan ===" ::
    dryRunLinesFrom 0 pvcs ++ ["Use --execute to run the actual migration"]

/-! Supporting lemmas. -/

/-- Splitting never yields an empty list of chunks. -/
theorem splitStrFuel_length_pos (sep : List Char) :
    ∀ fuel cs acc, 0 < (splitStrFuel sep fuel cs acc).length := by
  intro fuel
  induction fuel with
  | zero =>
    intro cs acc
    cases cs <;> simp [splitStrFuel]
  | succ n ih =>
    intro cs acc
    cases cs with
    | nil => simp [splitStrFuel]
    | cons c rest =>
      simp only [splitStrFuel]
      split
      · simp
      · exact ih rest (c :: acc)

/-- When the (nonempty) separator occurs in the input and the fuel covers
    the input length, splitting yields at least two chunks. -/
theorem splitStrFuel_two_le (sep : List Char) (hsep : sep ≠ []) :
    ∀ fuel cs acc, cs.length ≤ fuel → charsContains cs sep = true →
      2 ≤ (splitStrFuel sep fuel cs acc).length := by
  intro fuel
  induction fuel with
  | zero =>
    intro cs acc hlen hc
    have hnil : cs = [] := by
      cases cs with
      | nil => rfl
      | cons c rest => simp at hlen
    subst hnil
    cases sep with
    | nil => exact absurd rfl hsep
    | cons b bs => simp [charsContains, charsStarts] at hc
  | succ n ih =>
    intro cs acc hlen hc
    cases cs with
    | nil =>
      cases sep with
      | nil => exact absurd rfl hsep
      | cons b bs => simp [charsContains, charsStarts] at hc
    | cons c rest =>
      simp only [splitStrFuel]
      split
      · have := splitStrFuel_length_pos sep n ((c :: rest).drop sep.length) []
        simp
        omega
      · rename_i hstarts
        have hc' : charsContains rest sep = true := by
          rw [charsContains] at hc
          simp [hstarts] at hc
          exact hc
        have hlen' : rest.length ≤ n := by
          simp at hlen
          omega
        exact ih rest (c :: acc) hlen' hc'

/-- Accumulating fold that keeps lowercased parts longer than one
    character equals a filter-and-map of the traversed list. -/
theorem foldl_keepLong_eq (l : List String) :
    ∀ acc, l.foldl
        (fun acc2 part =>
          if part.length > 1 then acc2 ++ [goToLower part] else acc2) acc =
      acc ++ (l.filter (fun p => decide (p.length > 1))).map goToLower := by
  induction l with
  | nil => intro acc; simp
  | cons p t ih =>
    intro acc
    by_cases hp : p.length > 1
    · simp [List.foldl, hp, ih, List.filter]
    · simp [List.foldl, hp, ih, List.filter]

/-! Claim C4. -/

/-- Claim C4: for every PVC name containing a hyphen, extractPVCParts
    computes the cleaned name by dropping exactly the first
    hyphen-delimited segment and rejoining the rest with hyphens, then
    splits the cleaned name on the hyphen and underscore separators,
    discards split parts of length at most one, and appends the
    lowercased cleaned full name as a final part. -/
theorem claim_C4_extractPVCParts (s : String) (h : strContains s "-" = true) :
    extractPVCParts s =
      ((splitOnStr "-" (joinSep "-" ((splitOnStr "-" s).drop 1))).filter
          (fun p => decide (p.length > 1))).map goToLower ++
        ((splitOnStr "_" (joinSep "-" ((splitOnStr "-" s).drop 1))).filter
            (fun p => decide (p.length > 1))).map goToLower ++
        [goToLower (joinSep "-" ((splitOnStr "-" s).drop 1))] := by
  have hdata : ("-" : String).data = ['-'] := rfl
  have hsplit : 2 ≤ (splitOnStr "-" s).length := by
    have := splitStrFuel_two_le ['-'] (by simp) s.data.length s.data []
      (le_refl _) (by rw [strContains, hdata] at h; exact h)
    simpa [splitOnStr, hdata] using this
  have hgt : (splitOnStr "-" s).length > 1 := hsplit
  simp only [extractPVCParts, h, if_true, hgt, List.foldl,
    foldl_keepLong_eq, List.nil_append, List.append_assoc]

/-- Witness for claim C4 on the name svc-app-data. -/
theorem claim_C4_witness :
    strContains "svc-app-data" "-" = true ∧
      extractPVCParts "svc-app-data" =
        ((splitOnStr "-" (joinSep "-" ((splitOnStr "-" "svc-app-data").drop 1))).filter
            (fun p => decide (p.length > 1))).map goToLower ++
          ((splitOnStr "_" (joinSep "-" ((splitOnStr "-" "svc-app-data").drop 1))).filter
              (fun p => decide (p.length > 1))).map goToLower ++
          [goToLower (joinSep "-" ((splitOnStr "-" "svc-app-data").drop 1))] :=
  ⟨by decide, claim_C4_extractPVCParts "svc-app-data" (by decide)⟩

/-! Claim C8. -/

/-- A lookup hit names a binding of the association list. -/
theorem lookup_mem {m : List (String × DockerVolumeInfo)} {k : String}
    {v : DockerVolumeInfo} (h : List.lookup k m = some v) : (k, v) ∈ m := by
  induction m with
  | nil => simp [List.lookup] at h
  | cons q t ih =>
    rcases q with ⟨a, b⟩
    by_cases hk : k = a
    · subst hk
      simp [List.lookup] at h
      subst h
      exact List.mem_cons_self _ _
    · have hbeq : (k == a) = false := by simp [hk]
      simp [List.lookup, hbeq] at h
      exact List.mem_cons_of_mem _ (ih h)

/-- A binding of the association list makes lookup succeed. -/
theorem mem_lookup_isSome {m : List (String × DockerVolumeInfo)} {k : String}
    {v : DockerVolumeInfo} (h : (k, v) ∈ m) :
    ∃ v', List.lookup k m = some v' := by
  induction m with
  | nil => simp at h
  | cons q t ih =>
    rcases q with ⟨a, b⟩
    by_cases hk : k = a
    · subst hk
      exact ⟨b, by simp [List.lookup]⟩
    · have hbeq : (k == a) = false := by simp [hk]
      rcases List.mem_cons.mp h with h' | h'
      · exact absurd (congrArg Prod.fst h') hk
      · obtain ⟨v', hv'⟩ := ih h'
        exact ⟨v', by simp [List.lookup, hbeq, hv']⟩

/-- The best-score fold of findFuzzyMatchForCompose. -/
def fuzzyFold (volumeName : String) (dockerVolumes : List (String × DockerVolumeInfo))
    (acc : String × Nat) : String × Nat :=
  dockerVolumes.foldl
    (fun (acc : String × Nat) p =>
      let score := calculateComposeMatchScore volumeName p.1
      if score > acc.2 && score > 0 then (p.1, score) else acc)
    acc

/-- findFuzzyMatchForCompose restated through its fold. -/
theorem findFuzzy_eq_fold (dockerVolumes : List (String × DockerVolumeInfo))
    (volumeName : String) :
    findFuzzyMatchForCompose dockerVolumes volumeName =
      (if (fuzzyFold volumeName dockerVolumes ("", 0)).1 != "" then
        List.lookup (fuzzyFold volumeName dockerVolumes ("", 0)).1 dockerVolumes
      else none) := rfl

/-- The best-score fold is monotone, dominates every traversed score,
    and either keeps its accumulator or lands on a traversed key with
    its positive score. -/
theorem fuzzyFold_spec (volumeName : String) :
    ∀ (m : List (String × DockerVolumeInfo)) (acc : String × Nat),
      acc.2 ≤ (fuzzyFold volumeName m acc).2 ∧
      (∀ p ∈ m,
        calculateComposeMatchScore volumeName p.1 ≤ (fuzzyFold volumeName m acc).2) ∧
      (fuzzyFold volumeName m acc = acc ∨
        ∃ p ∈ m,
          fuzzyFold volumeName m acc =
            (p.1, calculateComposeMatchScore volumeName p.1) ∧
          0 < (fuzzyFold volumeName m acc).2) := by
  intro m
  induction m with
  | nil => intro acc; simp [fuzzyFold]
  | cons q t ih =>
    intro acc
    have hstep : fuzzyFold volumeName (q :: t) acc =
        fuzzyFold volumeName t
          (if calculateComposeMatchScore volumeName q.1 > acc.2 &&
              calculateComposeMatchScore volumeName q.1 > 0 then
            (q.1, calculateComposeMatchScore volumeName q.1)
          else acc) := rfl
    by_cases hcond : calculateComposeMatchScore volumeName q.1 > acc.2 ∧
        calculateComposeMatchScore volumeName q.1 > 0
    · have hif : (if calculateComposeMatchScore volumeName q.1 > acc.2 &&
            calculateComposeMatchScore volumeName q.1 > 0 then
          (q.1, calculateComposeMatchScore volumeName q.1)
        else acc) = (q.1, calculateComposeMatchScore volumeName q.1) := by
        simp [hcond.1, hcond.2]
      rw [hstep, hif]
      obtain ⟨ih1, ih2, ih3⟩ :=
        ih (q.1, calculateComposeMatchScore volumeName q.1)
      refine ⟨?_, ?_, ?_⟩
      · calc acc.2 ≤ calculateComposeMatchScore volumeName q.1 := le_of_lt hcond.1
          _ ≤ _ := by simpa using ih1
      · intro p hp
        rcases List.mem_cons.mp hp with hp | hp
        · subst hp
          simpa using ih1
        · exact ih2 p hp
      · rcases ih3 with h | ⟨p, hp, hval, hpos⟩
        · right
          refine ⟨q, List.mem_cons_self _ _, h, ?_⟩
          rw [h]
          simpa using hcond.2
        · right
          exact ⟨p, List.mem_cons_of_mem _ hp, hval, hpos⟩
    · have hif : (if calculateComposeMatchScore volumeName q.1 > acc.2 &&
            calculateComposeMatchScore volumeName q.1 > 0 then
          (q.1, calculateComposeMatchScore volumeName q.1)
        else acc) = acc := by
        rcases Nat.lt_or_ge acc.2 (calculateComposeMatchScore volumeName q.1) with h | h
        · have h0 : calculateComposeMatchScore volumeName q.1 = 0 := by
            rcases Nat.eq_zero_or_pos (calculateComposeMatchScore volumeName q.1) with h0 | h0
            · exact h0
            · exact absurd ⟨h, h0⟩ hcond
          simp [h0]
        · have hnot : ¬ calculateComposeMatchScore volumeName q.1 > acc.2 := not_lt.mpr h
          simp [hnot]
      rw [hstep, hif]
      obtain ⟨ih1, ih2, ih3⟩ := ih acc
      refine ⟨ih1, ?_, ?_⟩
      · intro p hp
        rcases List.mem_cons.mp hp with hp | hp
        · subst hp
          rcases Nat.lt_or_ge acc.2 (calculateComposeMatchScore volumeName p.1) with h | h
          · have h0 : calculateComposeMatchScore volumeName p.1 = 0 := by
              rcases Nat.eq_zero_or_pos (calculateComposeMatchScore volumeName p.1) with h0 | h0
              · exact h0
              · exact absurd ⟨h, h0⟩ hcond
            omega
          · exact le_trans h ih1
        · exact ih2 p hp
      · rcases ih3 with h | ⟨p, hp, hval, hpos⟩
        · exact Or.inl h
        · exact Or.inr ⟨p, List.mem_cons_of_mem _ hp, hval, hpos⟩

/-- Claim C8: the compose match score is the sum of 3 for a lowercase
    substring hit, 2 for a lowercase suffix hit and 4 for a
    separator-prefixed substring hit; and over an inventory with
    nonempty volume names, findFuzzyMatchForCompose returns none exactly
    when every score is zero, and otherwise a volume attaining the
    maximal, strictly positive, score. -/
theorem claim_C8_fuzzy_scoring (aliasName dockerName : String)
    (inventory : List (String × DockerVolumeInfo))
    (hkeys : ∀ p ∈ inventory, p.1 ≠ "") :
    (calculateComposeMatchScore aliasName dockerName =
      (if strContains (goToLower dockerName) (goToLower aliasName) then 3 else 0) +
        (if strEnds (goToLower dockerName) (goToLower aliasName) then 2 else 0) +
        (if strContains (goToLower dockerName) ("_" ++ goToLower aliasName) ||
            strContains (goToLower dockerName) ("-" ++ goToLower aliasName) then 4
          else 0)) ∧
    (findFuzzyMatchForCompose inventory aliasName = none ↔
      ∀ p ∈ inventory, calculateComposeMatchScore aliasName p.1 = 0) ∧
    (∀ v, findFuzzyMatchForCompose inventory aliasName = some v →
      ∃ k, (k, v) ∈ inventory ∧ 0 < calculateComposeMatchScore aliasName k ∧
        ∀ p ∈ inventory,
          calculateComposeMatchScore aliasName p.1 ≤
            calculateComposeMatchScore aliasName k) := by
  obtain ⟨hmono, hdom, hshape⟩ := fuzzyFold_spec aliasName inventory ("", 0)
  refine ⟨?_, ⟨?_, ?_⟩, ?_⟩
  · by_cases h1 : strContains (goToLower dockerName) (goToLower aliasName) = true <;>
      by_cases h2 : strEnds (goToLower dockerName) (goToLower aliasName) = true <;>
      by_cases h3 : (strContains (goToLower dockerName) ("_" ++ goToLower aliasName) ||
        strContains (goToLower dockerName) ("-" ++ goToLower aliasName)) = true <;>
      simp [calculateComposeMatchScore, h1, h2, h3]
  · intro hnone p hp
    by_contra hpos
    have hposn : 0 < calculateComposeMatchScore aliasName p.1 := Nat.pos_of_ne_zero hpos
    have hr2 : 0 < (fuzzyFold aliasName inventory ("", 0)).2 :=
      lt_of_lt_of_le hposn (hdom p hp)
    rcases hshape with hacc | ⟨q, hq, hval, _⟩
    · rw [hacc] at hr2
      simp at hr2
    · have hkey : (fuzzyFold aliasName inventory ("", 0)).1 = q.1 := by rw [hval]
      have hne : (fuzzyFold aliasName inventory ("", 0)).1 ≠ "" := by
        rw [hkey]
        exact hkeys q hq
      rw [findFuzzy_eq_fold] at hnone
      simp [hne, hkey] at hnone
      exact hnone (hkey ▸ hne) q.1 q.2 (by simpa using hq) rfl
  · intro hall
    have hacc : fuzzyFold aliasName inventory ("", 0) = ("", 0) := by
      rcases hshape with h | ⟨p, hp, hval, hpos⟩
      · exact h
      · have h0 := hall p hp
        rw [hval] at hpos
        simp [h0] at hpos
    rw [findFuzzy_eq_fold, hacc]
    simp
  · intro v hv
    rw [findFuzzy_eq_fold] at hv
    by_cases hne : (fuzzyFold aliasName inventory ("", 0)).1 ≠ ""
    · simp [hne] at hv
      rcases hshape with hacc | ⟨p, hp, hval, hpos⟩
      · rw [hacc] at hne
        simp at hne
      · have hkey : (fuzzyFold aliasName inventory ("", 0)).1 = p.1 := by rw [hval]
        rw [hkey] at hv
        refine ⟨p.1, lookup_mem hv, ?_, ?_⟩
        · rw [hval] at hpos
          simpa using hpos
        · intro q hq
          have hle := hdom q hq
          rw [hval] at hle
          simpa using hle
    · push_neg at hne
      simp [hne] at hv

/-- Concrete inventory for the claim C8 witness. -/
def invC8 : List (String × DockerVolumeInfo) :=
  [("proj_app_data",
    { Name := "proj_app_data", Mountpoint := "/v/a", Size := 1, SizeHuman := "1 B" }),
   ("cache",
    { Name := "cache", Mountpoint := "/v/b", Size := 2, SizeHuman := "2 B" })]

/-- Witness for claim C8 on a two-volume inventory. -/
theorem claim_C8_witness :
    findFuzzyMatchForCompose invC8 "data" = none ↔
      ∀ p ∈ invC8, calculateComposeMatchScore "data" p.1 = 0 :=
  (claim_C8_fuzzy_scoring "data" "proj_app_data" invC8 (by decide)).2.1

/-! Claim C3. -/

/-- The accumulator step of LoadVolumes. -/
def loadVolumesStep (volumeSizes : Option (List (String × volumeSize)))
    (walkSize : String → Int × String)
    (result : List (String × DockerVolumeInfo)) (v : VolumeListing) :
    List (String × DockerVolumeInfo) :=
  let found : Option volumeSize :=
    match volumeSizes with
    | none => none
    | some m => List.lookup v.Name m
  let size : Int := match found with | some df => df.bytes | none => 0
  let sizeHuman : String := match found with | some df => df.human | none => ""
  let links : Int := match found with | some df => df.links | none => 0
  if links > 0 then result
  else
    let sized : Int × String :=
      if size = 0 then walkSize v.Mountpoint else (size, sizeHuman)
    mapInsert result v.Name
      { Name := v.Name, Mountpoint := v.Mountpoint
        Size := sized.1, SizeHuman := sized.2 }

/-- LoadVolumes restated through its accumulator step. -/
theorem LoadVolumes_eq_fold (volumes : List VolumeListing)
    (volumeSizes : Option (List (String × volumeSize)))
    (walkSize : String → Int × String) :
    LoadVolumes volumes volumeSizes walkSize =
      volumes.foldl (loadVolumesStep volumeSizes walkSize) [] := rfl

/-- One LoadVolumes step never introduces a binding for a volume whose
    size table row reports positive links, and every binding it adds
    carries its key as the volume name. -/
theorem loadVolumesStep_inv {szs : List (String × volumeSize)}
    {walkSize : String → Int × String} {name : String} {sz : volumeSize}
    (hsz : List.lookup name szs = some sz) (hlinks : sz.links > 0)
    (acc : List (String × DockerVolumeInfo)) (v : VolumeListing)
    (hacc : ∀ p ∈ acc, p.1 ≠ name ∧ p.2.Name = p.1) :
    ∀ p ∈ loadVolumesStep (some szs) walkSize acc v,
      p.1 ≠ name ∧ p.2.Name = p.1 := by
  intro p hp
  by_cases hv : v.Name = name
  · have hfound : List.lookup v.Name szs = some sz := by rw [hv]; exact hsz
    simp only [loadVolumesStep, hfound] at hp
    rw [if_pos hlinks] at hp
    exact hacc p hp
  · simp only [loadVolumesStep] at hp
    split at hp
    · exact hacc p hp
    · simp only [mapInsert, List.mem_append, List.mem_filter] at hp
      rcases hp with ⟨hmem, _⟩ | hp
      · exact hacc p hmem
      · simp at hp
        subst hp
        exact ⟨hv, rfl⟩

/-- An association list with no binding at a key looks the key up to none. -/
theorem lookup_eq_none_of_forall {m : List (String × DockerVolumeInfo)}
    {name : String} (h : ∀ p ∈ m, p.1 ≠ name) :
    List.lookup name m = none := by
  induction m with
  | nil => rfl
  | cons q t ih =>
    rcases q with ⟨a, b⟩
    have hq : a ≠ name := h (a, b) (List.mem_cons_self _ _)
    have hbeq : (name == a) = false := by
      simp
      exact fun he => hq he.symm
    simp [List.lookup, hbeq]
    intro a' b' hmem he
    exact h (a', b') (List.mem_cons_of_mem _ hmem) he.symm

/-- Membership is preserved by the sort insertion step. -/
theorem mem_insertByName {a v : DockerVolumeInfo} :
    ∀ {l : List DockerVolumeInfo}, a ∈ insertByName v l ↔ a = v ∨ a ∈ l := by
  intro l
  induction l with
  | nil => simp [insertByName]
  | cons w ws ih =>
    by_cases hlt : v.Name < w.Name
    · simp [insertByName, hlt]
    · simp [insertByName, hlt, ih]
      tauto

/-- Sorting the candidate list for display preserves membership. -/
theorem mem_sortByName {a : DockerVolumeInfo} :
    ∀ {l : List DockerVolumeInfo}, a ∈ sortByName l ↔ a ∈ l := by
  intro l
  induction l with
  | nil => simp [sortByName]
  | cons w ws ih =>
    have hstep : sortByName (w :: ws) = insertByName w (sortByName ws) := rfl
    rw [hstep, mem_insertByName]
    simp [ih]

/-- Claim C3: a docker volume whose size table row reports positive
    links is absent from the LoadVolumes result, and therefore never
    occurs in the part-based candidate list nor in the full-inventory
    fallback list the matcher offers. -/
theorem claim_C3_in_use_excluded (volumes : List VolumeListing)
    (szs : List (String × volumeSize)) (walkSize : String → Int × String)
    (name : String) (sz : volumeSize)
    (hsz : List.lookup name szs = some sz) (hlinks : sz.links > 0) :
    List.lookup name (LoadVolumes volumes (some szs) walkSize) = none ∧
    (∀ pvcName v,
      v ∈ findVolumesContainingPVCName (LoadVolumes volumes (some szs) walkSize) pvcName →
        v.Name ≠ name) ∧
    (∀ v, v ∈ getAllDockerVolumes (LoadVolumes volumes (some szs) walkSize) →
      v.Name ≠ name) := by
  have hinv : ∀ p ∈ LoadVolumes volumes (some szs) walkSize,
      p.1 ≠ name ∧ p.2.Name = p.1 := by
    rw [LoadVolumes_eq_fold]
    have hgen : ∀ (vs : List VolumeListing) (acc : List (String × DockerVolumeInfo)),
        (∀ p ∈ acc, p.1 ≠ name ∧ p.2.Name = p.1) →
        ∀ p ∈ vs.foldl (loadVolumesStep (some szs) walkSize) acc,
          p.1 ≠ name ∧ p.2.Name = p.1 := by
      intro vs
      induction vs with
      | nil => intro acc hacc; simpa using hacc
      | cons v t ih =>
        intro acc hacc
        exact ih _ (loadVolumesStep_inv hsz hlinks acc v hacc)
    exact hgen volumes [] (by simp)
  have hvals : ∀ v, v ∈ (LoadVolumes volumes (some szs) walkSize).map Prod.snd →
      v.Name ≠ name := by
    intro v hv
    obtain ⟨p, hp, hpv⟩ := List.mem_map.mp hv
    obtain ⟨hne, hnm⟩ := hinv p hp
    rw [← hpv]
    rw [hnm]
    exact hne
  refine ⟨?_, ?_, ?_⟩
  · exact lookup_eq_none_of_forall (fun p hp => (hinv p hp).1)
  · intro pvcName v hv
    simp only [findVolumesContainingPVCName] at hv
    rw [mem_sortByName] at hv
    exact hvals v (List.mem_of_mem_filter hv)
  · intro v hv
    simp only [getAllDockerVolumes] at hv
    rw [mem_sortByName] at hv
    exact hvals v hv

/-- Concrete volume listing for the claim C3 witness. -/
def volsC3 : List VolumeListing :=
  [{ Name := "app_data", Mountpoint := "/var/lib/docker/volumes/app_data/_data" },
   { Name := "busy", Mountpoint := "/var/lib/docker/volumes/busy/_data" }]

/-- Concrete docker df size table for the claim C3 witness. -/
def szsC3 : List (String × volumeSize) :=
  [("app_data", { bytes := 500000000, human := "500MB", links := 0 }),
   ("busy", { bytes := 1000, human := "1KB", links := 2 })]

/-- Witness for claim C3: the in-use volume busy is absent from the map. -/
theorem claim_C3_witness :
    List.lookup "busy" (LoadVolumes volsC3 (some szsC3) (fun _ => (0, "0 B"))) = none :=
  (claim_C3_in_use_excluded volsC3 szsC3 (fun _ => (0, "0 B")) "busy"
    { bytes := 1000, human := "1KB", links := 2 } (by decide) (by decide)).1

/-! Claim C9. -/

/-- Resolution of a single sizing answer: empty input keeps the
    requested size, a valid quantity is adopted, an invalid one falls
    back to the requested size. -/
def resolvedSize (valid : String → Bool) (req raw : String) : String :=
  let input := goTrimSpace raw
  if input = "" then req
  else if valid input then input
  else req

/-- The sizes InteractiveSetSizes assigns when every read succeeds. -/
def setSizesSpec (valid : String → Bool) (inputs : Nat → Option String) :
    Nat → List PVCInfo → List PVCInfo
  | _, [] => []
  | i, pvc :: rest =>
    { pvc with NewSize := resolvedSize valid pvc.RequestedSize ((inputs i).getD "") } ::
      setSizesSpec valid inputs (i + 1) rest

/-- When every read succeeds the interactive sizing loop returns the
    resolved assignment without error. -/
theorem InteractiveSetSizesFrom_ok (valid : String → Bool)
    (inputs : Nat → Option String) :
    ∀ (l : List PVCInfo) (i0 : Nat), (∀ j, j < l.length → inputs (i0 + j) ≠ none) →
      InteractiveSetSizesFrom valid inputs i0 l =
        .ok (setSizesSpec valid inputs i0 l) := by
  intro l
  induction l with
  | nil => intro i0 _; rfl
  | cons pvc rest ih =>
    intro i0 h
    have h0 : inputs i0 ≠ none := by
      have := h 0 (by simp)
      simpa using this
    obtain ⟨raw, hraw⟩ := Option.ne_none_iff_exists'.mp h0
    have hrec := ih (i0 + 1) (by
      intro j hj
      have := h (j + 1) (by simpa using Nat.succ_lt_succ hj)
      simpa [Nat.add_assoc, Nat.add_comm 1 j] using this)
    simp only [InteractiveSetSizesFrom, hraw, hrec, setSizesSpec, resolvedSize]
    simp [hraw]

/-- A resolved size is nonempty when the requested size is. -/
theorem resolvedSize_ne_empty (valid : String → Bool) (req raw : String)
    (hreq : req ≠ "") : resolvedSize valid req raw ≠ "" := by
  by_cases h0 : goTrimSpace raw = ""
  · simpa [resolvedSize, h0] using hreq
  · by_cases hv : valid (goTrimSpace raw) = true
    · simp [resolvedSize, h0, hv]
    · simp at hv
      simpa [resolvedSize, h0, hv] using hreq

/-- Every claim in the resolved assignment has a nonempty size when
    every requested size is nonempty. -/
theorem setSizesSpec_ne_empty (valid : String → Bool) (inputs : Nat → Option String) :
    ∀ (l : List PVCInfo) (i0 : Nat), (∀ pvc ∈ l, pvc.RequestedSize ≠ "") →
      ∀ q ∈ setSizesSpec valid inputs i0 l, q.NewSize ≠ "" := by
  intro l
  induction l with
  | nil => intro i0 _ q hq; simp [setSizesSpec] at hq
  | cons pvc rest ih =>
    intro i0 h q hq
    rcases List.mem_cons.mp hq with hq | hq
    · subst hq
      exact resolvedSize_ne_empty valid _ _ (h pvc (List.mem_cons_self _ _))
    · exact ih (i0 + 1) (fun p hp => h p (List.mem_cons_of_mem _ hp)) q hq

/-- Claim C9: with every stdin read succeeding and nonempty requested
    sizes, InteractiveSetSizes returns without error the assignment in
    which empty input keeps the requested size, a valid quantity input
    is adopted, an invalid input falls back to the requested size, and
    every resolved size is nonempty. -/
theorem claim_C9_interactive_sizes (valid : String → Bool)
    (inputs : Nat → Option String) (pvcs : List PVCInfo)
    (hread : ∀ j, j < pvcs.length → inputs j ≠ none)
    (hreq : ∀ pvc ∈ pvcs, pvc.RequestedSize ≠ "") :
    InteractiveSetSizes valid inputs pvcs = .ok (setSizesSpec valid inputs 0 pvcs) ∧
    (∀ req raw, goTrimSpace raw = "" → resolvedSize valid req raw = req) ∧
    (∀ req raw, goTrimSpace raw ≠ "" → valid (goTrimSpace raw) = true →
      resolvedSize valid req raw = goTrimSpace raw) ∧
    (∀ req raw, goTrimSpace raw ≠ "" → valid (goTrimSpace raw) = false →
      resolvedSize valid req raw = req) ∧
    (∀ q ∈ setSizesSpec valid inputs 0 pvcs, q.NewSize ≠ "") := by
  refine ⟨?_, ?_, ?_, ?_, ?_⟩
  · exact InteractiveSetSizesFrom_ok valid inputs pvcs 0 (by simpa using hread)
  · intro req raw h0
    simp [resolvedSize, h0]
  · intro req raw h0 hv
    simp [resolvedSize, h0, hv]
  · intro req raw h0 hv
    simp [resolvedSize, h0, hv]
  · exact setSizesSpec_ne_empty valid inputs pvcs 0 hreq

/-- Concrete quantity validator for the claim C9 witness. -/
def validC9 : String → Bool := fun s => s == "1Gi" || s == "2Gi" || s == "500Mi"

/-- Concrete stdin stream for the claim C9 witness. -/
def inputsC9 : Nat → Option String := fun j =>
  if j = 0 then some "" else if j = 1 then some " 2Gi " else some "not-a-size"

/-- Concrete claim list for the claim C9 witness. -/
def pvcsC9 : List PVCInfo :=
  [{ Name := "svc-app-data", Namespace := "default", RequestedSize := "1Gi"
     MatchedVolume := none, NewSize := "" },
   { Name := "svc-cache", Namespace := "default", RequestedSize := "1Gi"
     MatchedVolume := none, NewSize := "" },
   { Name := "svc-logs", Namespace := "default", RequestedSize := "1Gi"
     MatchedVolume := none, NewSize := "" }]

/-- Witness for claim C9: empty, valid and invalid answers on a
    three-claim list. -/
theorem claim_C9_witness :
    InteractiveSetSizes validC9 inputsC9 pvcsC9 =
      .ok (setSizesSpec validC9 inputsC9 0 pvcsC9) :=
  (claim_C9_interactive_sizes validC9 inputsC9 pvcsC9
    (by decide) (by decide)).1

/-! Claim C10. -/

/-- Claim C10: the selection loop returns no volume exactly when the
    first accepted input is 0, and whenever it returns a volume, that
    volume is the in-range entry the accepted input named, hence one of
    the displayed candidates; every other input re-prompts. -/
theorem claim_C10_selection (candidates : List DockerVolumeInfo)
    (attempts : List (Option String)) :
    (interactiveVolumeSelection candidates attempts = some none ↔
      acceptedChoice candidates.length attempts = some 0) ∧
    (∀ v, interactiveVolumeSelection candidates attempts = some (some v) →
      ∃ c : Int, acceptedChoice candidates.length attempts = some c ∧
        1 ≤ c ∧ c ≤ (candidates.length : Int) ∧
        ∃ hc : (c - 1).toNat < candidates.length,
          v = candidates.get ⟨(c - 1).toNat, hc⟩ ∧ v ∈ candidates) := by
  induction attempts with
  | nil => simp [interactiveVolumeSelection, acceptedChoice]
  | cons a rest ih =>
    rcases a with _ | raw
    · simpa [interactiveVolumeSelection, acceptedChoice] using ih
    · rcases hparse : atoi (goTrimSpace raw) with _ | choice
      · simpa [interactiveVolumeSelection, acceptedChoice, hparse] using ih
      · by_cases hc0 : choice = 0
        · subst hc0
          constructor
          · simp [interactiveVolumeSelection, acceptedChoice, hparse]
          · intro v hv
            simp [interactiveVolumeSelection, hparse] at hv
        · by_cases hcr : 1 ≤ choice ∧ choice ≤ (candidates.length : Int)
          · have hsel : interactiveVolumeSelection candidates (some raw :: rest) =
                some (some (candidates.get
                  ⟨(choice - 1).toNat, by omega⟩)) := by
              simp only [interactiveVolumeSelection, hparse]
              rw [if_neg hc0, dif_pos hcr]
            have hacc : acceptedChoice candidates.length (some raw :: rest) =
                some choice := by
              simp only [acceptedChoice, hparse]
              rw [if_pos (Or.inr hcr)]
            constructor
            · rw [hsel, hacc]
              constructor
              · intro h
                exact absurd (Option.some.inj h) (by simp)
              · intro h
                exact absurd (Option.some.inj h) hc0
            · intro v hv
              rw [hsel] at hv
              have hveq := Option.some.inj (Option.some.inj hv)
              refine ⟨choice, hacc, hcr.1, hcr.2, by omega, hveq.symm, ?_⟩
              rw [hveq.symm]
              exact List.get_mem _ _ _
          · have hsel : interactiveVolumeSelection candidates (some raw :: rest) =
                interactiveVolumeSelection candidates rest := by
              simp only [interactiveVolumeSelection, hparse]
              rw [if_neg hc0, dif_neg hcr]
            have hacc : acceptedChoice candidates.length (some raw :: rest) =
                acceptedChoice candidates.length rest := by
              simp only [acceptedChoice, hparse]
              rw [if_neg (by tauto)]
            rw [hsel, hacc]
            exact ih

/-- Candidates for the claim C10 witness. -/
def candsC10 : List DockerVolumeInfo :=
  [{ Name := "proj_app_data", Mountpoint := "/v/a", Size := 1, SizeHuman := "1 B" },
   { Name := "proj_cache", Mountpoint := "/v/c", Size := 2, SizeHuman := "2 B" }]

/-- Input attempts for the claim C10 witness: a non-numeric line, a read
    error and an out-of-range number all re-prompt before 2 selects the
    second candidate. -/
def attemptsC10 : List (Option String) :=
  [some "abc", none, some "7", some " 2 "]

/-- Witness for claim C10: the accepted input 2 returns the second
    displayed candidate. -/
theorem claim_C10_witness :
    ∃ c : Int, acceptedChoice candsC10.length attemptsC10 = some c ∧
      1 ≤ c ∧ c ≤ (candsC10.length : Int) ∧
      ∃ hc : (c - 1).toNat < candsC10.length,
        { Name := "proj_cache", Mountpoint := "/v/c", Size := 2,
          SizeHuman := "2 B" : DockerVolumeInfo } =
            candsC10.get ⟨(c - 1).toNat, hc⟩ ∧
        { Name := "proj_cache", Mountpoint := "/v/c", Size := 2,
          SizeHuman := "2 B" : DockerVolumeInfo } ∈ candsC10 :=
  (claim_C10_selection candsC10 attemptsC10).2
    { Name := "proj_cache", Mountpoint := "/v/c", Size := 2, SizeHuman := "2 B" }
    (by decide)

/-! Claim C6. -/

/-- Claim C6: an unmatched claim is skipped by the orchestrator with no
    error and no control-plane action (the run on the remaining items is
    unchanged), and the dry-run projection renders it as a single SKIP
    line in both the item renderer and the full listing. -/
theorem claim_C6_unmatched_skip (env : Nat → KubeOracle) (i : Nat)
    (pvc : PVCInfo) (rest : List PVCInfo) (h : pvc.MatchedVolume = none) :
    StartMigrationFrom env i (pvc :: rest) = StartMigrationFrom env (i + 1) rest ∧
    dryRunItem i pvc =
      ["[" ++ Nat.repr (i + 1) ++ "] SKIP: " ++ pvc.Name ++ " (no volume selected)"] ∧
    dryRunLinesFrom i (pvc :: rest) =
      ("[" ++ Nat.repr (i + 1) ++ "] SKIP: " ++ pvc.Name ++ " (no volume selected)") ::
        dryRunLinesFrom (i + 1) rest := by
  refine ⟨?_, ?_, ?_⟩
  · simp [StartMigrationFrom, h]
  · simp [dryRunItem, h]
  · simp [dryRunLinesFrom, dryRunItem, h]

/-- Trivial control-plane oracle for the claim C6 witness. -/
def envC6 : Nat → KubeOracle := fun _ =>
  { applyPVCErr := none, pvcPoll := fun _ => none, applyPodErr := none
    podPoll := fun _ => none, logsErr := none, deleteErr := none, now := 0 }

/-- Unmatched claim for the claim C6 witness. -/
def pvcUnmatched : PVCInfo :=
  { Name := "svc-app-data", Namespace := "default", RequestedSize := "1Gi"
    MatchedVolume := none, NewSize := "1Gi" }

/-- Witness for claim C6 at list position 0 with one further item. -/
theorem claim_C6_witness :
    StartMigrationFrom envC6 0 [pvcUnmatched, pvcUnmatched] =
      StartMigrationFrom envC6 1 [pvcUnmatched] ∧
    dryRunItem 0 pvcUnmatched =
      ["[" ++ Nat.repr 1 ++ "] SKIP: " ++ pvcUnmatched.Name ++ " (no volume selected)"] ∧
    dryRunLinesFrom 0 [pvcUnmatched, pvcUnmatched] =
      ("[" ++ Nat.repr 1 ++ "] SKIP: " ++ pvcUnmatched.Name ++ " (no volume selected)") ::
        dryRunLinesFrom 1 [pvcUnmatched] :=
  claim_C6_unmatched_skip envC6 0 pvcUnmatched [pvcUnmatched] (by decide)

/-! Polling-loop lemmas for the orchestrator waits. -/

/-- A poll outcome whose trimmed output is the given phase. -/
abbrev pollReports (o : Option String) (phase : String) : Prop :=
  o.map goTrimSpace = some phase

/-- A worker-pod poll outcome that keeps the completion wait polling:
    either the poll command failed or the phase is neither Succeeded nor
    Failed. -/
def podPollNonTerminal (o : Option String) : Prop :=
  ∀ s, o = some s → goTrimSpace s ≠ "Succeeded" ∧ goTrimSpace s ≠ "Failed"

/-- A claim poll outcome that keeps the variant-A bound wait polling:
    either the poll command failed or the phase is neither Bound nor
    Failed. -/
def pvcPollNonTerminalA (o : Option String) : Prop :=
  ∀ s, o = some s → goTrimSpace s ≠ "Bound" ∧ goTrimSpace s ≠ "Failed"

/-- The live bound wait times out after exactly its budget of polls when
    no poll in the window reports Bound, whatever else the polls report. -/
theorem waitForPVCBound_timeout (pvcName ns : String) (poll : Nat → Option String) :
    ∀ fuel i, (∀ j, i ≤ j → j < i + fuel → ¬ pollReports (poll j) "Bound") →
      waitForPVCBound pvcName ns poll fuel i =
        (.error ("timeout waiting for PVC " ++ pvcName ++ " to be bound"),
         List.replicate fuel (.getPVCPhase pvcName ns)) := by
  intro fuel
  induction fuel with
  | zero => intro i _; rfl
  | succ n ih =>
    intro i h
    have hrec := ih (i + 1) (fun j hj1 hj2 => h j (by omega) (by omega))
    rcases hpoll : poll i with _ | out
    · simp only [waitForPVCBound, hpoll, hrec]
      simp [List.replicate_succ]
    · have hnb : ¬ goTrimSpace out = "Bound" := by
        have := h i (le_refl i) (by omega)
        simpa [pollReports, hpoll] using this
      simp only [waitForPVCBound, hpoll]
      rw [if_neg hnb]
      simp [hrec, List.replicate_succ]

/-- The live bound wait succeeds at the first poll reporting Bound,
    having issued exactly the polls up to and including it. -/
theorem waitForPVCBound_success (pvcName ns : String) (poll : Nat → Option String) :
    ∀ fuel i m, i ≤ m → m < i + fuel → pollReports (poll m) "Bound" →
      (∀ j, i ≤ j → j < m → ¬ pollReports (poll j) "Bound") →
      waitForPVCBound pvcName ns poll fuel i =
        (.ok (), List.replicate (m - i + 1) (.getPVCPhase pvcName ns)) := by
  intro fuel
  induction fuel with
  | zero => intro i m h1 h2 _ _; omega
  | succ n ih =>
    intro i m h1 h2 hb hbefore
    by_cases him : m = i
    · subst him
      rcases hpoll : poll m with _ | out
      · rw [hpoll] at hb
        simp [pollReports] at hb
      · have hbound : goTrimSpace out = "Bound" := by
          simpa [pollReports, hpoll] using hb
        simp only [waitForPVCBound, hpoll]
        rw [if_pos hbound]
        simp
    · have him' : i < m := by omega
      have hrec := ih (i + 1) m (by omega) (by omega) hb
        (fun j hj1 hj2 => hbefore j (by omega) hj2)
      have hcount : m - i + 1 = (m - (i + 1) + 1) + 1 := by omega
      rcases hpoll : poll i with _ | out
      · simp only [waitForPVCBound, hpoll, hrec]
        simp [hcount, List.replicate_succ]
      · have hnb : ¬ goTrimSpace out = "Bound" := by
          have := hbefore i (le_refl i) him'
          simpa [pollReports, hpoll] using this
        simp only [waitForPVCBound, hpoll]
        rw [if_neg hnb]
        simp [hrec, hcount, List.replicate_succ]

/-- The variant-A bound wait returns its fatal binding error at the
    first poll reporting Failed when no earlier poll terminated it. -/
theorem EngineA_waitForPVCBound_failed (pvcName : String) (poll : Nat → Option String) :
    ∀ fuel i k, i ≤ k → k < i + fuel →
      (∀ j, i ≤ j → j < k → pvcPollNonTerminalA (poll j)) →
      pollReports (poll k) "Failed" →
      EngineA.waitForPVCBound pvcName poll fuel i = .error "PVC failed to bind" := by
  intro fuel
  induction fuel with
  | zero => intro i k h1 h2 _ _; omega
  | succ n ih =>
    intro i k h1 h2 hbefore hf
    by_cases hik : k = i
    · subst hik
      rcases hpoll : poll k with _ | out
      · rw [hpoll] at hf
        simp [pollReports] at hf
      · have hfail : goTrimSpace out = "Failed" := by
          simpa [pollReports, hpoll] using hf
        have hnb : ¬ goTrimSpace out = "Bound" := by
          rw [hfail]
          decide
        simp only [EngineA.waitForPVCBound, hpoll]
        rw [if_neg hnb, if_pos hfail]
    · have hik' : i < k := by omega
      have hrec := ih (i + 1) k (by omega) (by omega)
        (fun j hj1 hj2 => hbefore j (by omega) hj2) hf
      rcases hpoll : poll i with _ | out
      · simp only [EngineA.waitForPVCBound, hpoll]
        exact hrec
      · obtain ⟨hnb, hnf⟩ := hbefore i (le_refl i) hik' out hpoll
        simp only [EngineA.waitForPVCBound, hpoll]
        rw [if_neg hnb, if_neg hnf]
        exact hrec

/-- The completion wait returns the fatal pod failure at the first poll
    reporting Failed when no earlier poll terminated it, having issued
    exactly the polls up to and including it. -/
theorem waitForPodCompletion_failed (podName ns : String) (poll : Nat → Option String) :
    ∀ fuel i k, i ≤ k → k < i + fuel →
      (∀ j, i ≤ j → j < k → podPollNonTerminal (poll j)) →
      pollReports (poll k) "Failed" →
      waitForPodCompletion podName ns poll fuel i =
        (.error "migration pod failed",
         List.replicate (k - i + 1) (.getPodPhase podName ns)) := by
  intro fuel
  induction fuel with
  | zero => intro i k h1 h2 _ _; omega
  | succ n ih =>
    intro i k h1 h2 hbefore hf
    by_cases hik : k = i
    · subst hik
      rcases hpoll : poll k with _ | out
      · rw [hpoll] at hf
        simp [pollReports] at hf
      · have hfail : goTrimSpace out = "Failed" := by
          simpa [pollReports, hpoll] using hf
        have hns : ¬ goTrimSpace out = "Succeeded" := by
          rw [hfail]
          decide
        simp only [waitForPodCompletion, hpoll]
        rw [if_neg hns, if_pos hfail]
        simp
    · have hik' : i < k := by omega
      have hrec := ih (i + 1) k (by omega) (by omega)
        (fun j hj1 hj2 => hbefore j (by omega) hj2) hf
      have hcount : k - i + 1 = (k - (i + 1) + 1) + 1 := by omega
      rcases hpoll : poll i with _ | out
      · simp only [waitForPodCompletion, hpoll, hrec]
        simp [hcount, List.replicate_succ]
      · obtain ⟨hns, hnf⟩ := hbefore i (le_refl i) hik' out hpoll
        simp only [waitForPodCompletion, hpoll]
        rw [if_neg hns, if_neg hnf]
        simp [hrec, hcount, List.replicate_succ]

/-! Claim C7. -/

/-- Claim C7: the live bound wait always terminates within its
    5-minute/5-second poll budget of 60 polls: it succeeds at the first
    poll reporting Bound having issued exactly that many polls, and
    otherwise returns the timeout error after the full budget. -/
theorem claim_C7_bound_wait_terminates (pvcName ns : String)
    (poll : Nat → Option String) :
    ((∀ j, j < pvcBoundPollBudget → ¬ pollReports (poll j) "Bound") →
      waitForPVCBound pvcName ns poll pvcBoundPollBudget 0 =
        (.error ("timeout waiting for PVC " ++ pvcName ++ " to be bound"),
         List.replicate pvcBoundPollBudget (.getPVCPhase pvcName ns))) ∧
    (∀ m, m < pvcBoundPollBudget → pollReports (poll m) "Bound" →
      (∀ j, j < m → ¬ pollReports (poll j) "Bound") →
      waitForPVCBound pvcName ns poll pvcBoundPollBudget 0 =
        (.ok (), List.replicate (m + 1) (.getPVCPhase pvcName ns))) := by
  constructor
  · intro h
    exact waitForPVCBound_timeout pvcName ns poll pvcBoundPollBudget 0
      (fun j _ hj2 => h j (by omega))
  · intro m hm hb hbefore
    have := waitForPVCBound_success pvcName ns poll pvcBoundPollBudget 0 m
      (by omega) (by omega) hb (fun j _ hj2 => hbefore j hj2)
    simpa using this

/-- Poll stream Pending, Pending, Bound for the claim C7 witness. -/
def pollC7 : Nat → Option String := fun j =>
  if j < 2 then some "Pending" else some "Bound"

/-- Witness for claim C7: the Pending, Pending, Bound stream succeeds on
    the third poll. -/
theorem claim_C7_witness :
    waitForPVCBound "svc-app-data" "default" pollC7 pvcBoundPollBudget 0 =
      (.ok (), List.replicate 3 (.getPVCPhase "svc-app-data" "default")) :=
  (claim_C7_bound_wait_terminates "svc-app-data" "default" pollC7).2 2
    (by decide) (by decide) (by decide)

/-! Claim C2. -/

/-- Counterexample to claim C2 as stated: in the live engine variant
    (engine.go of the engine built by main.go), a claim poll reporting
    the Failed phase does not end the bound wait.  With every poll
    reporting Failed from the first one on, the wait still issues its
    full 60-poll budget and then returns the timeout error, not a fatal
    binding error. -/
theorem claim_C2_counterexample :
    waitForPVCBound "data" "default" (fun _ => some "Failed") pvcBoundPollBudget 0 =
      (.error "timeout waiting for PVC data to be bound",
       List.replicate 60 (.getPVCPhase "data" "default")) := by
  have h := waitForPVCBound_timeout "data" "default" (fun _ => some "Failed")
    pvcBoundPollBudget 0 (by decide)
  simpa using h

/-- Claim C2 amended: the bound-wait variant of the yaml-directory
    engine (engine.go lines 152-188) returns the fatal binding error at
    the first poll reporting Failed, while the bound wait of the engine
    variant main.go builds (lines 559-587) does not inspect the Failed
    phase and, when no poll reports Bound, keeps polling until the
    5-minute ceiling and returns a timeout error. -/
theorem claim_C2_amended (pvcName ns : String) (poll : Nat → Option String) :
    (∀ fuel i k, i ≤ k → k < i + fuel →
      (∀ j, i ≤ j → j < k → pvcPollNonTerminalA (poll j)) →
      pollReports (poll k) "Failed" →
      EngineA.waitForPVCBound pvcName poll fuel i = .error "PVC failed to bind") ∧
    ((∀ j, j < pvcBoundPollBudget → ¬ pollReports (poll j) "Bound") →
      (waitForPVCBound pvcName ns poll pvcBoundPollBudget 0).1 =
        .error ("timeout waiting for PVC " ++ pvcName ++ " to be bound")) := by
  constructor
  · exact EngineA_waitForPVCBound_failed pvcName poll
  · intro h
    rw [waitForPVCBound_timeout pvcName ns poll pvcBoundPollBudget 0
      (fun j _ hj2 => h j (by omega))]

/-- Witness for claim C2: variant A aborts at the first Failed poll;
    the live variant instead times out on a stream that never binds. -/
theorem claim_C2_witness :
    EngineA.waitForPVCBound "db" (fun _ => some "Failed") pvcBoundPollBudget 0 =
      .error "PVC failed to bind" ∧
    (waitForPVCBound "db" "default" (fun _ => some "Failed") pvcBoundPollBudget 0).1 =
      .error ("timeout waiting for PVC " ++ "db" ++ " to be bound") := by
  constructor
  · exact (claim_C2_amended "db" "default" (fun _ => some "Failed")).1
      pvcBoundPollBudget 0 0 (le_refl 0) (by decide)
      (fun j _ hj2 => absurd hj2 (Nat.not_lt_zero j)) (by decide)
  · exact (claim_C2_amended "db" "default" (fun _ => some "Failed")).2 (by decide)

/-! Claim C1. -/

/-- Claim C1: when the claim binds and then some worker poll reports
    Failed (with no earlier terminal poll), the run fails with the
    fatal pod message wrapped through copyData and migratePVC,
    StartMigration returns at once with the failing claim named in the
    error, the whole trace is that of the first item alone (so no later
    claim is processed), and no log fetch or pod deletion is issued. -/
theorem claim_C1_pod_failure_aborts (env : Nat → KubeOracle) (pvc : PVCInfo)
    (vol : DockerVolumeInfo) (rest : List PVCInfo)
    (hmatch : pvc.MatchedVolume = some vol)
    (happly : (env 0).applyPVCErr = none)
    (m : Nat) (hm : m < pvcBoundPollBudget)
    (hbound : pollReports ((env 0).pvcPoll m) "Bound")
    (hbefore : ∀ j, j < m → ¬ pollReports ((env 0).pvcPoll j) "Bound")
    (hpodapply : (env 0).applyPodErr = none)
    (k : Nat) (hk : k < podCompletionPollBudget)
    (hkbefore : ∀ j, j < k → podPollNonTerminal ((env 0).podPoll j))
    (hfail : pollReports ((env 0).podPoll k) "Failed") :
    StartMigrationFrom env 0 (pvc :: rest) =
      (.error ("migration failed for PVC " ++ pvc.Name ++ ": " ++
        ("failed to copy data: " ++ ("migration pod failed: " ++ "migration pod failed"))),
       EngineAction.applyPVC pvc.Name pvc.Namespace pvc.NewSize ::
         (List.replicate (m + 1) (EngineAction.getPVCPhase pvc.Name pvc.Namespace) ++
           EngineAction.applyPod ("migration-" ++ pvc.Name ++ "-" ++ Nat.repr (env 0).now)
               pvc.Namespace vol.Mountpoint pvc.Name ::
             List.replicate (k + 1)
               (EngineAction.getPodPhase
                 ("migration-" ++ pvc.Name ++ "-" ++ Nat.repr (env 0).now)
                 pvc.Namespace))) ∧
    StartMigrationFrom env 0 (pvc :: rest) = StartMigrationFrom env 0 [pvc] ∧
    (∀ p n, EngineAction.getLogs p n ∉ (StartMigrationFrom env 0 (pvc :: rest)).2 ∧
      EngineAction.deletePod p n ∉ (StartMigrationFrom env 0 (pvc :: rest)).2) := by
  have hcreate : createPVC (env 0) pvc =
      (.ok (), [EngineAction.applyPVC pvc.Name pvc.Namespace pvc.NewSize]) := by
    simp [createPVC, happly]
  have hwaitB : waitForPVCBound pvc.Name pvc.Namespace (env 0).pvcPoll
      pvcBoundPollBudget 0 =
      (.ok (), List.replicate (m + 1) (.getPVCPhase pvc.Name pvc.Namespace)) := by
    have := waitForPVCBound_success pvc.Name pvc.Namespace (env 0).pvcPoll
      pvcBoundPollBudget 0 m (by omega) (by omega) hbound
      (fun j _ hj2 => hbefore j hj2)
    simpa using this
  have hwaitP : waitForPodCompletion
      ("migration-" ++ pvc.Name ++ "-" ++ Nat.repr (env 0).now) pvc.Namespace
      (env 0).podPoll podCompletionPollBudget 0 =
      (.error "migration pod failed",
       List.replicate (k + 1)
         (.getPodPhase ("migration-" ++ pvc.Name ++ "-" ++ Nat.repr (env 0).now)
           pvc.Namespace)) := by
    have := waitForPodCompletion_failed
      ("migration-" ++ pvc.Name ++ "-" ++ Nat.repr (env 0).now) pvc.Namespace
      (env 0).podPoll podCompletionPollBudget 0 k (by omega) (by omega)
      (fun j _ hj2 => hkbefore j hj2) hfail
    simpa using this
  have hcopy : copyData (env 0) pvc vol =
      (.error ("migration pod failed: " ++ "migration pod failed"),
       EngineAction.applyPod ("migration-" ++ pvc.Name ++ "-" ++ Nat.repr (env 0).now)
           pvc.Namespace vol.Mountpoint pvc.Name ::
         List.replicate (k + 1)
           (.getPodPhase ("migration-" ++ pvc.Name ++ "-" ++ Nat.repr (env 0).now)
             pvc.Namespace)) := by
    simp only [copyData, hpodapply, hwaitP]
  have hmig : migratePVC (env 0) pvc vol =
      (.error ("failed to copy data: " ++
        ("migration pod failed: " ++ "migration pod failed")),
       EngineAction.applyPVC pvc.Name pvc.Namespace pvc.NewSize ::
         (List.replicate (m + 1) (EngineAction.getPVCPhase pvc.Name pvc.Namespace) ++
           EngineAction.applyPod ("migration-" ++ pvc.Name ++ "-" ++ Nat.repr (env 0).now)
               pvc.Namespace vol.Mountpoint pvc.Name ::
             List.replicate (k + 1)
               (.getPodPhase ("migration-" ++ pvc.Name ++ "-" ++ Nat.repr (env 0).now)
                 pvc.Namespace))) := by
    simp only [migratePVC, hcreate, hwaitB, hcopy]
    simp
  have hstart : StartMigrationFrom env 0 (pvc :: rest) =
      (.error ("migration failed for PVC " ++ pvc.Name ++ ": " ++
        ("failed to copy data: " ++ ("migration pod failed: " ++ "migration pod failed"))),
       EngineAction.applyPVC pvc.Name pvc.Namespace pvc.NewSize ::
         (List.replicate (m + 1) (EngineAction.getPVCPhase pvc.Name pvc.Namespace) ++
           EngineAction.applyPod ("migration-" ++ pvc.Name ++ "-" ++ Nat.repr (env 0).now)
               pvc.Namespace vol.Mountpoint pvc.Name ::
             List.replicate (k + 1)
               (.getPodPhase ("migration-" ++ pvc.Name ++ "-" ++ Nat.repr (env 0).now)
                 pvc.Namespace))) := by
    simp only [StartMigrationFrom, hmatch, hmig]
  have hstart1 : StartMigrationFrom env 0 [pvc] =
      (.error ("migration failed for PVC " ++ pvc.Name ++ ": " ++
        ("failed to copy data: " ++ ("migration pod failed: " ++ "migration pod failed"))),
       EngineAction.applyPVC pvc.Name pvc.Namespace pvc.NewSize ::
         (List.replicate (m + 1) (EngineAction.getPVCPhase pvc.Name pvc.Namespace) ++
           EngineAction.applyPod ("migration-" ++ pvc.Name ++ "-" ++ Nat.repr (env 0).now)
               pvc.Namespace vol.Mountpoint pvc.Name ::
             List.replicate (k + 1)
               (.getPodPhase ("migration-" ++ pvc.Name ++ "-" ++ Nat.repr (env 0).now)
                 pvc.Namespace))) := by
    simp only [StartMigrationFrom, hmatch, hmig]
  refine ⟨hstart, by rw [hstart, hstart1], ?_⟩
  intro p n
  rw [hstart]
  constructor
  · simp [List.mem_replicate]
  · simp [List.mem_replicate]

/-- Control-plane oracle for the claim C1 witness: the claim binds at
    the first poll and the worker pod fails at the first poll. -/
def envC1 : Nat → KubeOracle := fun _ =>
  { applyPVCErr := none, pvcPoll := fun _ => some "Bound", applyPodErr := none
    podPoll := fun _ => some "Failed", logsErr := none, deleteErr := none, now := 7 }

/-- Matched source volume for the claim C1 witness. -/
def volC1 : DockerVolumeInfo :=
  { Name := "app_data", Mountpoint := "/v/app_data", Size := 1, SizeHuman := "1 B" }

/-- First claim for the claim C1 witness. -/
def pvcC1 : PVCInfo :=
  { Name := "svc-app-data", Namespace := "default", RequestedSize := "1Gi"
    MatchedVolume := some volC1, NewSize := "2Gi" }

/-- Second (never processed) claim for the claim C1 witness. -/
def pvcC1b : PVCInfo :=
  { Name := "svc-cache", Namespace := "default", RequestedSize := "1Gi"
    MatchedVolume := some volC1, NewSize := "1Gi" }

/-- Witness for claim C1: a first-poll pod failure aborts the two-item
    run with the first item's identity and without cleanup actions. -/
theorem claim_C1_witness :
    StartMigrationFrom envC1 0 [pvcC1, pvcC1b] =
      (.error ("migration failed for PVC " ++ pvcC1.Name ++ ": " ++
        ("failed to copy data: " ++ ("migration pod failed: " ++ "migration pod failed"))),
       EngineAction.applyPVC pvcC1.Name pvcC1.Namespace pvcC1.NewSize ::
         (List.replicate (0 + 1) (EngineAction.getPVCPhase pvcC1.Name pvcC1.Namespace) ++
           EngineAction.applyPod ("migration-" ++ pvcC1.Name ++ "-" ++ Nat.repr (envC1 0).now)
               pvcC1.Namespace volC1.Mountpoint pvcC1.Name ::
             List.replicate (0 + 1)
               (EngineAction.getPodPhase
                 ("migration-" ++ pvcC1.Name ++ "-" ++ Nat.repr (envC1 0).now)
                 pvcC1.Namespace))) ∧
    StartMigrationFrom envC1 0 [pvcC1, pvcC1b] = StartMigrationFrom envC1 0 [pvcC1] ∧
    (∀ p n, EngineAction.getLogs p n ∉ (StartMigrationFrom envC1 0 [pvcC1, pvcC1b]).2 ∧
      EngineAction.deletePod p n ∉ (StartMigrationFrom envC1 0 [pvcC1, pvcC1b]).2) :=
  claim_C1_pod_failure_aborts envC1 pvcC1 volC1 [pvcC1b] (by decide) (by decide)
    0 (by decide) (by decide) (fun j hj => absurd hj (Nat.not_lt_zero j))
    (by decide) 0 (by decide) (fun j hj => absurd hj (Nat.not_lt_zero j)) (by decide)

/-! Claim C5. -/

/-- Looking up the assigned key after an in-place map rewrite. -/
theorem lookup_mapSet {β : Type} {m : List (String × β)} {k : String} {v : β}
    (hany : m.any (fun p => p.1 == k) = true) :
    List.lookup k (m.map (fun p => if p.1 == k then (k, v) else p)) = some v := by
  induction m with
  | nil => simp at hany
  | cons q t ih =>
    simp only [List.map_cons]
    by_cases hq : q.1 = k
    · have hfq : (if (q.1 == k) = true then (k, v) else q) = (k, v) :=
        if_pos (by simp [hq])
      rw [hfq]
      simp [List.lookup]
    · have hq' : (q.1 == k) = false := by simp [hq]
      have hfq : (if (q.1 == k) = true then (k, v) else q) = q :=
        if_neg (by simp [hq'])
      rw [hfq]
      have hk' : (k == q.1) = false := by
        simp
        exact fun he => hq he.symm
      have hany' : t.any (fun p => p.1 == k) = true := by
        rw [List.any_cons, hq'] at hany
        simpa only [Bool.false_or] using hany
      rcases q with ⟨a, b⟩
      simp only at hk'
      simp only [List.lookup, hk']
      exact ih hany'

/-- Looking up the appended key when the key was absent. -/
theorem lookup_append_last {β : Type} {m : List (String × β)} {k : String} {v : β}
    (hnone : m.any (fun p => p.1 == k) = false) :
    List.lookup k (m ++ [(k, v)]) = some v := by
  induction m with
  | nil => simp [List.lookup]
  | cons q t ih =>
    rcases q with ⟨a, b⟩
    have hfa : (a == k) = false := by
      cases hfa : (a == k) with
      | false => rfl
      | true =>
        rw [List.any_cons] at hnone
        simp only at hnone
        rw [hfa] at hnone
        simp at hnone
    have hrest : t.any (fun p => p.1 == k) = false := by
      rw [List.any_cons] at hnone
      simp only at hnone
      rw [hfa] at hnone
      simpa only [Bool.false_or] using hnone
    have hk' : (k == a) = false := by
      simp only [beq_eq_false_iff_ne] at hfa
      simp only [beq_eq_false_iff_ne]
      exact fun he => hfa he.symm
    simp only [List.cons_append, List.lookup, hk']
    exact ih hrest

/-- Looking up a different key is unchanged by an in-place rewrite. -/
theorem lookup_map_other {β : Type} {m : List (String × β)} {k k' : String} {v : β}
    (h : k' ≠ k) :
    List.lookup k' (m.map (fun p => if p.1 == k then (k, v) else p)) =
      List.lookup k' m := by
  induction m with
  | nil => simp
  | cons q t ih =>
    simp only [List.map_cons]
    by_cases hq : q.1 = k
    · have hfq : (if (q.1 == k) = true then (k, v) else q) = (k, v) :=
        if_pos (by simp [hq])
      rw [hfq]
      have hk1 : (k' == k) = false := by simp [h]
      have hk2 : (k' == q.1) = false := by simp [hq, h]
      rcases q with ⟨a, b⟩
      simp only at hk2
      simp only [List.lookup, hk1, hk2]
      exact ih
    · have hfq : (if (q.1 == k) = true then (k, v) else q) = q :=
        if_neg (by simp [hq])
      rw [hfq]
      rcases q with ⟨a, b⟩
      cases hke : (k' == a) with
      | true => simp only [List.lookup, hke]
      | false =>
        simp only [List.lookup, hke]
        exact ih

/-- Looking up a different key is unchanged by appending a binding. -/
theorem lookup_append_other {β : Type} {m : List (String × β)} {k k' : String} {v : β}
    (h : k' ≠ k) :
    List.lookup k' (m ++ [(k, v)]) = List.lookup k' m := by
  induction m with
  | nil =>
    have hk1 : (k' == k) = false := by simp [h]
    simp [List.lookup, hk1]
  | cons q t ih =>
    rcases q with ⟨a, b⟩
    cases hke : (k' == a) with
    | true => simp only [List.cons_append, List.lookup, hke]
    | false =>
      simp only [List.cons_append, List.lookup, hke]
      exact ih

/-- Go map assignment makes the assigned key read back the value. -/
theorem mlookup_mset_self (m : List (String × GoVal)) (k : String) (v : GoVal) :
    mlookup (mset m k v) k = some v := by
  by_cases hany : m.any (fun p => p.1 == k) = true
  · simp only [mset, mlookup, hany, if_true]
    exact lookup_mapSet hany
  · have hf : m.any (fun p => p.1 == k) = false := eq_false_of_ne_true hany
    simp only [mset, mlookup, hf, Bool.false_eq_true, if_false]
    exact lookup_append_last hf

/-- Go map assignment leaves every other key unchanged. -/
theorem mlookup_mset_other (m : List (String × GoVal)) (k k' : String) (v : GoVal)
    (h : k' ≠ k) : mlookup (mset m k v) k' = mlookup m k' := by
  by_cases hany : m.any (fun p => p.1 == k) = true
  · simp only [mset, mlookup, hany, if_true]
    exact lookup_map_other h
  · have hf : m.any (fun p => p.1 == k) = false := eq_false_of_ne_true hany
    simp only [mset, mlookup, hf, Bool.false_eq_true, if_false]
    exact lookup_append_other h

/-- A successful claim rewrite re-parses to the claim identity with the
    requested size equal to the newly assigned size, names a claim of
    the list, and only happens for a nonempty new size. -/
theorem updatePVCObject_parse (obj : List (String × GoVal)) (pvcs : List PVCInfo)
    (obj2 : List (String × GoVal)) (pvc : PVCInfo)
    (h : updatePVCObject obj pvcs = some (obj2, pvc)) :
    parsePVCFromObject obj2 =
      some { Name := pvc.Name, Namespace := pvc.Namespace
             RequestedSize := pvc.NewSize, MatchedVolume := none, NewSize := "" } ∧
    pvc ∈ pvcs ∧ pvc.NewSize ≠ "" := by
  simp only [updatePVCObject] at h
  split at h
  · simp at h
  · repeat (split at h <;> try simp at h)
    rename_i hkind xa metadata hmeta xb nm hname xc matched hfind xd spec hspec
      xe resources hres xf requests hreq
    obtain ⟨hnz, hobj2, hpvc⟩ := h
    subst hobj2
    subst hpvc
    have hpred := List.find?_some hfind
    simp only [Bool.and_eq_true, beq_iff_eq] at hpred
    obtain ⟨hn1, hn2⟩ := hpred
    have hm1 : mlookup
        (mset obj "spec"
          (GoVal.vmap (mset spec "resources"
            (GoVal.vmap (mset resources "requests"
              (GoVal.vmap (mset requests "storage"
                (GoVal.str matched.NewSize)))))))) "metadata" =
        some (GoVal.vmap metadata) := by
      rw [mlookup_mset_other _ _ _ _ (by decide)]
      exact hmeta
    refine ⟨?_, List.mem_of_find?_eq_some hfind, hnz⟩
    simp only [parsePVCFromObject, hm1, hname, mlookup_mset_self]
    rw [← hn1, ← hn2]

/-- A document the rewrite step does not update is returned verbatim. -/
theorem updateDocumentIfPVC_not_updated
    (um : String → Option (List (String × GoVal)))
    (mar : List (String × GoVal) → String) (d : String) (pvcs : List PVCInfo)
    (h : (updateDocumentIfPVC um mar d pvcs).2 = false) :
    (updateDocumentIfPVC um mar d pvcs).1 = d := by
  rcases hum : um d with _ | obj
  · simp [updateDocumentIfPVC, hum]
  · rcases hup : updatePVCObject obj pvcs with _ | pr
    · simp [updateDocumentIfPVC, hum, hup]
    · rcases pr with ⟨o2, p⟩
      simp [updateDocumentIfPVC, hum, hup] at h

/-- The document fold of updateYAMLFile collects the rewrites of the
    non-whitespace documents and the disjunction of their update flags. -/
theorem updFold_spec (um : String → Option (List (String × GoVal)))
    (mar : List (String × GoVal) → String) (pvcs : List PVCInfo) :
    ∀ (docs : List String) (acc : List String × Bool),
      docs.foldl (updStep um mar pvcs) acc =
      (acc.1 ++ (docs.filter (fun d => !(goTrimSpace d == ""))).map
          (fun d => (updateDocumentIfPVC um mar d pvcs).1),
       acc.2 || (docs.filter (fun d => !(goTrimSpace d == ""))).any
          (fun d => (updateDocumentIfPVC um mar d pvcs).2)) := by
  intro docs
  induction docs with
  | nil => intro acc; simp
  | cons d t ih =>
    intro acc
    rw [List.foldl_cons]
    by_cases hd : goTrimSpace d = ""
    · have h1 : updStep um mar pvcs acc d = acc := by simp [updStep, hd]
      have h2 : List.filter (fun d => !(goTrimSpace d == "")) (d :: t) =
          List.filter (fun d => !(goTrimSpace d == "")) t := by
        rw [List.filter_cons]
        simp [hd]
      rw [h1, ih, h2]
    · have h1 : updStep um mar pvcs acc d =
          (acc.1 ++ [(updateDocumentIfPVC um mar d pvcs).1],
           acc.2 || (updateDocumentIfPVC um mar d pvcs).2) := by
        simp [updStep, hd]
      have h2 : List.filter (fun d => !(goTrimSpace d == "")) (d :: t) =
          d :: List.filter (fun d => !(goTrimSpace d == "")) t := by
        rw [List.filter_cons]
        simp [hd]
      rw [h1, ih, h2]
      simp [List.append_assoc, Bool.or_assoc]

/-- updateYAMLFile characterised: it rewrites the file exactly when some
    non-whitespace document updates, and then writes the rewritten
    non-whitespace documents rejoined with the separator. -/
theorem updateYAMLFile_char (um : String → Option (List (String × GoVal)))
    (mar : List (String × GoVal) → String) (content : String)
    (pvcs : List PVCInfo) :
    updateYAMLFile um mar content pvcs =
      (if ((splitOnStr "\n---\n" content).filter
            (fun d => !(goTrimSpace d == ""))).any
            (fun d => (updateDocumentIfPVC um mar d pvcs).2) then
        some (joinSep "\n---\n"
          (((splitOnStr "\n---\n" content).filter
            (fun d => !(goTrimSpace d == ""))).map
            (fun d => (updateDocumentIfPVC um mar d pvcs).1)))
      else none) := by
  have hfold := updFold_spec um mar pvcs (splitOnStr "\n---\n" content) ([], false)
  simp only [updateYAMLFile, hfold]
  simp

/-- Claim C5 amended: a rewritten claim document re-parses with its
    requested size equal to the assigned new size; a non-updated
    document is carried over byte-identical; a rewritten file consists
    exactly of its non-whitespace documents (each rewritten or carried
    verbatim) rejoined with the document separator, so whitespace-only
    documents are dropped; and a file is left untouched exactly when no
    non-whitespace document of it updates. -/
theorem claim_C5_amended :
    (∀ (obj : List (String × GoVal)) (pvcs : List PVCInfo) obj2 pvc,
      updatePVCObject obj pvcs = some (obj2, pvc) →
        parsePVCFromObject obj2 =
          some { Name := pvc.Name, Namespace := pvc.Namespace
                 RequestedSize := pvc.NewSize, MatchedVolume := none, NewSize := "" } ∧
        pvc ∈ pvcs ∧ pvc.NewSize ≠ "") ∧
    (∀ um mar d (pvcs : List PVCInfo),
      (updateDocumentIfPVC um mar d pvcs).2 = false →
        (updateDocumentIfPVC um mar d pvcs).1 = d) ∧
    (∀ um mar content (pvcs : List PVCInfo) out,
      updateYAMLFile um mar content pvcs = some out →
        out = joinSep "\n---\n"
          (((splitOnStr "\n---\n" content).filter
            (fun d => !(goTrimSpace d == ""))).map
            (fun d => (updateDocumentIfPVC um mar d pvcs).1))) ∧
    (∀ um mar content (pvcs : List PVCInfo),
      updateYAMLFile um mar content pvcs = none ↔
        ∀ d ∈ splitOnStr "\n---\n" content, goTrimSpace d ≠ "" →
          (updateDocumentIfPVC um mar d pvcs).2 = false) := by
  refine ⟨updatePVCObject_parse, updateDocumentIfPVC_not_updated, ?_, ?_⟩
  · intro um mar content pvcs out hout
    rw [updateYAMLFile_char] at hout
    split at hout
    · exact (Option.some.inj hout).symm
    · exact absurd hout (by simp)
  · intro um mar content pvcs
    rw [updateYAMLFile_char]
    constructor
    · intro hnone d hd hws
      split at hnone
      · exact absurd hnone (by simp)
      · rename_i hany
        have hany' := eq_false_of_ne_true hany
        rw [List.any_eq_false] at hany'
        exact Bool.eq_false_iff.mpr
          (hany' d (List.mem_filter.mpr ⟨hd, by simpa using hws⟩))
    · intro hall
      have hany : ((splitOnStr "\n---\n" content).filter
          (fun d => !(goTrimSpace d == ""))).any
          (fun d => (updateDocumentIfPVC um mar d pvcs).2) = false := by
        rw [List.any_eq_false]
        intro d hd
        obtain ⟨hmem, hpred⟩ := List.mem_filter.mp hd
        exact Bool.eq_false_iff.mp (hall d hmem (by simpa using hpred))
      simp [hany]

/-- Claim list for the claim C5 counterexample and witness. -/
def pvcX0 : PVCInfo :=
  { Name := "data", Namespace := "default", RequestedSize := "1Gi"
    MatchedVolume := none, NewSize := "2Gi" }

/-- Claim list holding the single sized claim. -/
def pvcs0 : List PVCInfo := [pvcX0]

/-- Decoded non-claim document for the claim C5 counterexample. -/
def objX0 : List (String × GoVal) := [("kind", GoVal.str "ConfigMap")]

/-- Decoded claim document for the claim C5 counterexample and witness. -/
def objP0 : List (String × GoVal) :=
  [("kind", GoVal.str "PersistentVolumeClaim"),
   ("metadata", GoVal.vmap [("name", GoVal.str "data")]),
   ("spec", GoVal.vmap
     [("resources", GoVal.vmap
       [("requests", GoVal.vmap [("storage", GoVal.str "1Gi")])])])]

/-- The claim document object after the storage rewrite. -/
def objP0new : List (String × GoVal) :=
  [("kind", GoVal.str "PersistentVolumeClaim"),
   ("metadata", GoVal.vmap [("name", GoVal.str "data")]),
   ("spec", GoVal.vmap
     [("resources", GoVal.vmap
       [("requests", GoVal.vmap [("storage", GoVal.str "2Gi")])])])]

/-- Unmarshal oracle for the claim C5 counterexample: the first document
    decodes to a ConfigMap object and the claim document to the claim
    object. -/
def um0 : String → Option (List (String × GoVal)) := fun s =>
  if s = "kind: ConfigMap" then some objX0
  else if s = "PVCDOC" then some objP0
  else none

/-- Marshal oracle for the claim C5 counterexample; only its value on
    the single rewritten object matters. -/
def m0 : List (String × GoVal) → String := fun _ => "NEWPVCDOC"

/-- File content for the claim C5 counterexample: a non-claim document,
    a whitespace-only document, and a matching claim document. -/
def content0 : String := "kind: ConfigMap\n---\n\n---\nPVCDOC"

/-- Counterexample to claim C5 as stated: the rewrite is not
    byte-identical on every non-claim document.  The input file holds a
    whitespace-only document between its two separators; after the
    rewrite the file has only two documents, so the empty document (a
    document that is not a matching PersistentVolumeClaim) was dropped
    rather than carried byte-identical. -/
theorem claim_C5_counterexample :
    splitOnStr "\n---\n" content0 = ["kind: ConfigMap", "", "PVCDOC"] ∧
    updateYAMLFile um0 m0 content0 pvcs0 =
      some "kind: ConfigMap\n---\nNEWPVCDOC" ∧
    splitOnStr "\n---\n" "kind: ConfigMap\n---\nNEWPVCDOC" =
      ["kind: ConfigMap", "NEWPVCDOC"] := by
  refine ⟨by decide, by decide, by decide⟩

/-- Witness for claim C5: the rewritten claim object re-parses with the
    requested size equal to the assigned size 2Gi. -/
theorem claim_C5_witness :
    parsePVCFromObject objP0new =
      some { Name := pvcX0.Name, Namespace := pvcX0.Namespace
             RequestedSize := pvcX0.NewSize, MatchedVolume := none, NewSize := "" } ∧
    pvcX0 ∈ pvcs0 ∧ pvcX0.NewSize ≠ "" :=
  claim_C5_amended.1 objP0 pvcs0 objP0new pvcX0 rfl
